import Mathlib

/-!
Shallow embedding of the Active Focus Context Engine of the
`tambourine-voice` desktop application (Rust sources under
`app/src-tauri/src/active_app_context/`): the pure normalization
utilities (`shared.rs`), the snapshot model (`mod.rs`), the debounce
watcher transition function (`watcher.rs`), and the two platform capture
pipelines (`macos.rs`, `windows.rs`) with their OS calls abstracted as
an explicit environment record.  Strings are modelled as `List Char`;
Rust byte indices returned by `find` are used only to split at the found
position, which the character-level model reproduces faithfully for the
patterns involved.
-/

namespace TambourineFocus

/-- Unicode `White_Space` test used by Rust's `char::is_whitespace` and
`str::trim`. -/
def rustIsWhitespace (c : Char) : Bool :=
  let n := c.toNat
  (9 ≤ n && n ≤ 13) || n = 32 || n = 133 || n = 160 || n = 5760 ||
  (8192 ≤ n && n ≤ 8202) || n = 8232 || n = 8233 || n = 8239 || n = 8287 || n = 12288

/-- Left part of Rust `str::trim`. -/
def trimLeftWs (l : List Char) : List Char := l.dropWhile rustIsWhitespace

/-- Right part of Rust `str::trim`. -/
def trimRightWs (l : List Char) : List Char := (l.reverse.dropWhile rustIsWhitespace).reverse

/-- Rust `str::trim`: strip leading and trailing whitespace. -/
def rustTrim (l : List Char) : List Char := trimRightWs (trimLeftWs l)

/-- Index of the first occurrence of the substring `pat`, as Rust
`str::find(&str)` returns it (character-level model). -/
def findSubstring (pat : List Char) : List Char → Option Nat
  | [] => if pat.isEmpty then some 0 else none
  | c :: rest =>
    if pat.isPrefixOf (c :: rest) then some 0
    else (findSubstring pat rest).map (· + 1)

/-- Rust `str::contains(&str)` (substring containment). -/
def containsSubstr (pat s : List Char) : Bool := (findSubstring pat s).isSome

/-- Rust `str::strip_suffix`: remove `sfx` from the end, if present. -/
def stripSuffixCh (sfx t : List Char) : Option (List Char) :=
  if sfx.isSuffixOf t then some (t.take (t.length - sfx.length)) else none

/-- Rust ASCII lowercasing of one character (`u8::to_ascii_lowercase`). -/
def asciiLower (c : Char) : Char :=
  if 'A' ≤ c ∧ c ≤ 'Z' then Char.ofNat (c.toNat + 32) else c

/-- Rust `str::eq_ignore_ascii_case`. -/
def eqIgnoreAsciiCase (a b : List Char) : Bool :=
  a.map asciiLower = b.map asciiLower

/-- Rust `str::to_lowercase`, modelled at the character level by ASCII
lowercasing.  The handful of non-ASCII Unicode case mappings (which can
expand a character) are not modelled; no recognized browser name or
address-bar marker involves them. -/
def rustToLowercase (s : List Char) : List Char := s.map asciiLower

/-- Whether a character terminates the authority component (Rust pattern
`['/', '?', '#']`). -/
def isAuthorityEnd (c : Char) : Bool := c = '/' || c = '?' || c = '#'

/-- Index of the first character satisfying `p`, as Rust
`str::find([...])` returns it. -/
def findCharIdx (p : Char → Bool) : List Char → Option Nat
  | [] => none
  | c :: rest => if p c then some 0 else (findCharIdx p rest).map (· + 1)

/-! ### Rust std IP-address parser (`core::net::parser`)

`normalize_origin_from_scheme_less_url` calls `str::parse::<IpAddr>()`;
the parser below mirrors the std implementation: `read_ipv4_addr` /
`read_ipv6_addr` with backtracking, bounded `read_number` reads, and a
trailing end-of-input requirement.  Parsers take the input and return
the unconsumed remainder on success; group values are tracked only
through the overflow bounds, which is all that affects acceptance. -/

/-- Rust `char::to_digit`. -/
def rustToDigit (radix : Nat) (c : Char) : Option Nat :=
  let n := c.toNat
  let d : Option Nat :=
    if 48 ≤ n ∧ n ≤ 57 then some (n - 48)
    else if 97 ≤ n ∧ n ≤ 122 then some (n - 97 + 10)
    else if 65 ≤ n ∧ n ≤ 90 then some (n - 65 + 10)
    else none
  match d with
  | some d => if d < radix then some d else none
  | none => none

/-- Digit loop of Rust `Parser::read_number`: consume digits greedily,
failing the whole read on overflow past `bound` (checked arithmetic in
the octet/group type) or on exceeding `maxDigits`. -/
def readNumberLoop (radix bound : Nat) (maxDigits : Option Nat) :
    List Char → Nat → Nat → Option (Nat × Nat × List Char)
  | [], acc, count => some (acc, count, [])
  | c :: rest, acc, count =>
    match rustToDigit radix c with
    | none => some (acc, count, c :: rest)
    | some d =>
      let acc' := acc * radix + d
      if bound < acc' then none
      else
        let count' := count + 1
        match maxDigits with
        | some m =>
          if m < count' then none
          else readNumberLoop radix bound maxDigits rest acc' count'
        | none => readNumberLoop radix bound maxDigits rest acc' count'

/-- Rust `Parser::read_number`: at least one digit, optional
leading-zero rejection. -/
def readNumber (radix bound : Nat) (maxDigits : Option Nat) (allowZeroPrefix : Bool)
    (s : List Char) : Option (Nat × List Char) :=
  let hasLeadingZero : Bool := match s with | c :: _ => c = '0' | [] => false
  match readNumberLoop radix bound maxDigits s 0 0 with
  | none => none
  | some (acc, count, rest) =>
    if count = 0 then none
    else if !allowZeroPrefix && hasLeadingZero && 1 < count then none
    else some (acc, rest)

/-- Consume one expected character. -/
def expectChar (c : Char) : List Char → Option (List Char)
  | [] => none
  | c' :: rest => if c' = c then some rest else none

/-- One IPv4 octet: base 10, at most 3 digits, no leading zero, value ≤ 255. -/
def readOctet : List Char → Option (Nat × List Char) :=
  readNumber 10 255 (some 3) false

/-- Rust `Parser::read_ipv4_addr`: four octets separated by `'.'`. -/
def readIpv4 (s : List Char) : Option (List Char) := do
  let (_, s) ← readOctet s
  let s ← expectChar '.' s
  let (_, s) ← readOctet s
  let s ← expectChar '.' s
  let (_, s) ← readOctet s
  let s ← expectChar '.' s
  let (_, s) ← readOctet s
  pure s

/-- One IPv6 group: base 16, at most 4 digits, leading zeros allowed,
value ≤ 0xffff. -/
def readIpv6Group : List Char → Option (Nat × List Char) :=
  readNumber 16 65535 (some 4) true

/-- Loop body of Rust `read_groups`: starting at group index `i` with
`remaining` slots left, read `':'`-separated groups, allowing a trailing
embedded IPv4 address while at least two slots remain.  Returns the
number of groups read, whether an embedded IPv4 was read, and the
remainder of the input. -/
def readGroupsGo : Nat → Nat → List Char → Nat × Bool × List Char
  | 0, i, s => (i, false, s)
  | r + 1, i, s =>
    let tryV4 : Option (List Char) :=
      if 1 ≤ r then (if i = 0 then readIpv4 s else (expectChar ':' s).bind readIpv4)
      else none
    match tryV4 with
    | some rest => (i + 2, true, rest)
    | none =>
      match (if i = 0 then some s else expectChar ':' s).bind readIpv6Group with
      | some (_, rest) => readGroupsGo r (i + 1) rest
      | none => (i, false, s)

/-- Rust `read_groups` over `limit` slots. -/
def readGroups (limit : Nat) (s : List Char) : Nat × Bool × List Char :=
  readGroupsGo limit 0 s

/-- Rust `Parser::read_ipv6_addr`: head groups, then `"::"` and tail
groups unless all eight head groups were read; an embedded IPv4 is only
valid at the very end. -/
def readIpv6 (s : List Char) : Option (List Char) :=
  let (headSize, headIpv4, s1) := readGroups 8 s
  if headSize = 8 then some s1
  else if headIpv4 then none
  else do
    let s2 ← expectChar ':' s1
    let s3 ← expectChar ':' s2
    let (_, _, s4) := readGroups (8 - (headSize + 1)) s3
    pure s4

/-- Rust `str::parse::<IpAddr>().is_ok()`: `read_ipv4_addr` or else
`read_ipv6_addr`, then the whole input must have been consumed. -/
def isIpAddr (s : List Char) : Bool :=
  match readIpv4 s with
  | some rest => rest.isEmpty
  | none =>
    match readIpv6 s with
    | some rest => rest.isEmpty
    | none => false

/-! ### `shared.rs` normalization utilities -/

/-- `shared.rs::normalize_non_empty_focus_text`. -/
def normalize_non_empty_focus_text (raw : List Char) : Option (List Char) :=
  let t := rustTrim raw
  if t.isEmpty then none else some t

/-- `shared.rs::normalize_origin_from_absolute_url`. -/
def normalize_origin_from_absolute_url (t : List Char) : Option (List Char) :=
  match findSubstring "://".data t with
  | none => none
  | some i =>
    let url_scheme := t.take i
    let url_remainder := (t.drop i).drop 3
    if url_scheme.isEmpty || url_remainder.isEmpty then none
    else
      let authority_end_index := (findCharIdx isAuthorityEnd url_remainder).getD url_remainder.length
      let authority_component := url_remainder.take authority_end_index
      if authority_component.isEmpty then none
      else some (url_scheme ++ "://".data ++ authority_component)

/-- `shared.rs::normalize_origin_from_scheme_less_url`. -/
def normalize_origin_from_scheme_less_url (t : List Char) : Option (List Char) :=
  if t.any rustIsWhitespace then none
  else
    let authority_end_index := (findCharIdx isAuthorityEnd t).getD t.length
    let authority_component := t.take authority_end_index
    if authority_component.isEmpty then none
    else
      let authority_without_port := authority_component.takeWhile (fun c => c ≠ ':')
      let looks_like_domain_name := authority_without_port.any (fun c => c = '.')
      let looks_like_localhost := eqIgnoreAsciiCase authority_without_port "localhost".data
      let looks_like_ip_address := isIpAddr authority_without_port
      if !(looks_like_domain_name || looks_like_localhost || looks_like_ip_address) then none
      else some ("https://".data ++ authority_component)

/-- `shared.rs::normalize_browser_document_origin`. -/
def normalize_browser_document_origin (raw : List Char) : Option (List Char) :=
  match normalize_non_empty_focus_text raw with
  | none => none
  | some t =>
    (normalize_origin_from_absolute_url t).orElse
      (fun _ => normalize_origin_from_scheme_less_url t)

/-- The second title separator literal in `shared.rs` (the bytes of the
source file spell `" â€” "`, a mojibake em-dash variant). -/
def emDashSeparator : List Char := [' ', 'â', '€', '”', ' ']

/-- `shared.rs::infer_browser_tab_title_from_window_title`. -/
def infer_browser_tab_title_from_window_title
    (focused_window_title : Option (List Char)) (browser_name : List Char) :
    Option (List Char) :=
  match focused_window_title with
  | none => none
  | some raw =>
    match normalize_non_empty_focus_text raw with
    | none => none
    | some t =>
      match stripSuffixCh (" - ".data ++ browser_name) t with
      | some raw_tab_title => some ((normalize_non_empty_focus_text raw_tab_title).getD t)
      | none =>
        match stripSuffixCh (emDashSeparator ++ browser_name) t with
        | some raw_tab_title => some ((normalize_non_empty_focus_text raw_tab_title).getD t)
        | none => some t

/-- `mod.rs::FocusConfidenceLevel`. -/
inductive FocusConfidenceLevel
  | High
  | Medium
  | Low
deriving DecidableEq, Repr

/-- `shared.rs::determine_focus_confidence_level`. -/
def determine_focus_confidence_level
    (focused_window_is_present focused_browser_tab_is_present
     focused_browser_origin_is_present : Bool) : FocusConfidenceLevel :=
  if focused_window_is_present && focused_browser_origin_is_present then .High
  else if focused_window_is_present || focused_browser_tab_is_present then .Medium
  else .Low

/-! ### Snapshot model (`mod.rs`) -/

/-- `mod.rs::SupportedBrowser`. -/
inductive SupportedBrowser
  | Safari
  | GoogleChrome
  | MicrosoftEdge
  | BraveBrowser
  | Arc
  | Firefox
  | Opera
  | Vivaldi
  | Chromium
deriving DecidableEq, Repr

/-- `mod.rs::SupportedBrowser::display_name`. -/
def SupportedBrowser.display_name : SupportedBrowser → List Char
  | .Safari => "Safari".data
  | .GoogleChrome => "Google Chrome".data
  | .MicrosoftEdge => "Microsoft Edge".data
  | .BraveBrowser => "Brave Browser".data
  | .Arc => "Arc".data
  | .Firefox => "Firefox".data
  | .Opera => "Opera".data
  | .Vivaldi => "Vivaldi".data
  | .Chromium => "Chromium".data

/-- `mod.rs::FocusEventSource`. -/
inductive FocusEventSource
  | Polling
  | Accessibility
  | Uia
  | Unknown
deriving DecidableEq, Repr

/-- `mod.rs::FocusedApplication`. -/
structure FocusedApplication where
  display_name : List Char
  bundle_id : Option (List Char)
  process_path : Option (List Char)
deriving DecidableEq, Repr

/-- `mod.rs::FocusedWindow`. -/
structure FocusedWindow where
  title : List Char
deriving DecidableEq, Repr

/-- `mod.rs::FocusedBrowserTab`. -/
structure FocusedBrowserTab where
  title : Option (List Char)
  origin : Option (List Char)
  browser : Option (List Char)
deriving DecidableEq, Repr

/-- `mod.rs::ActiveAppContextSnapshot`; `captured_at` carries the
RFC 3339 timestamp string. -/
structure ActiveAppContextSnapshot where
  focused_application : Option FocusedApplication
  focused_window : Option FocusedWindow
  focused_browser_tab : Option FocusedBrowserTab
  event_source : FocusEventSource
  confidence_level : FocusConfidenceLevel
  captured_at : List Char
deriving DecidableEq, Repr

/-! ### Debounced watcher engine (`watcher.rs`)

`std::time::Instant` observation times and `Duration` windows are
modelled as `Nat`; `Instant::saturating_duration_since` is `Nat`
subtraction, which is saturating by definition. -/

/-- `watcher.rs::ComparableActiveAppContext`. -/
structure ComparableActiveAppContext where
  focused_application_display_name : Option (List Char)
  focused_window_title : Option (List Char)
  focused_browser_tab_title : Option (List Char)
  focused_browser_tab_origin : Option (List Char)
  confidence_level : FocusConfidenceLevel
deriving DecidableEq, Repr

/-- `watcher.rs`: the `From<&ActiveAppContextSnapshot>` projection for
`ComparableActiveAppContext`. -/
def comparableOfSnapshot (snapshot : ActiveAppContextSnapshot) : ComparableActiveAppContext where
  focused_application_display_name :=
    snapshot.focused_application.map (fun application => application.display_name)
  focused_window_title := snapshot.focused_window.map (fun window => window.title)
  focused_browser_tab_title :=
    snapshot.focused_browser_tab.bind (fun browser_tab => browser_tab.title)
  focused_browser_tab_origin :=
    snapshot.focused_browser_tab.bind (fun browser_tab => browser_tab.origin)
  confidence_level := snapshot.confidence_level

/-- `watcher.rs::DebouncingCandidateState`. -/
structure DebouncingCandidateState where
  candidate_context : ComparableActiveAppContext
  candidate_snapshot : ActiveAppContextSnapshot
  first_seen_at : Nat
deriving DecidableEq, Repr

/-- `watcher.rs::EmissionCandidate`. -/
structure EmissionCandidate where
  candidate_context : ComparableActiveAppContext
  candidate_snapshot : ActiveAppContextSnapshot
deriving DecidableEq, Repr

/-- `watcher.rs::FocusWatcherState`. -/
inductive FocusWatcherState
  | AwaitingInitialEmission
  | StableEmitted (emitted_context : ComparableActiveAppContext)
  | DebouncingCandidate (state : DebouncingCandidateState)
deriving DecidableEq, Repr

/-- `watcher.rs::WatcherPollResult`. -/
structure WatcherPollResult where
  next_state : FocusWatcherState
  emission_candidate : Option EmissionCandidate
deriving DecidableEq, Repr

/-- `watcher.rs::process_focus_snapshot_poll`. -/
def process_focus_snapshot_poll (current_state : FocusWatcherState)
    (polled_snapshot : ActiveAppContextSnapshot) (observed_at : Nat)
    (debounce_window : Nat) : WatcherPollResult :=
  let polled_context := comparableOfSnapshot polled_snapshot
  match current_state with
  | .AwaitingInitialEmission =>
    { next_state := .DebouncingCandidate
        { candidate_context := polled_context
          candidate_snapshot := polled_snapshot
          first_seen_at := observed_at }
      emission_candidate := none }
  | .StableEmitted emitted_context =>
    if emitted_context = polled_context then
      { next_state := .StableEmitted emitted_context
        emission_candidate := none }
    else
      { next_state := .DebouncingCandidate
          { candidate_context := polled_context
            candidate_snapshot := polled_snapshot
            first_seen_at := observed_at }
        emission_candidate := none }
  | .DebouncingCandidate debouncing_candidate_state =>
    let debouncing_candidate_state :=
      if debouncing_candidate_state.candidate_context = polled_context then
        { debouncing_candidate_state with candidate_snapshot := polled_snapshot }
      else
        { candidate_context := polled_context
          candidate_snapshot := polled_snapshot
          first_seen_at := observed_at }
    let elapsed_since_first_seen := observed_at - debouncing_candidate_state.first_seen_at
    let emission_candidate :=
      if debounce_window ≤ elapsed_since_first_seen then
        some { candidate_context := debouncing_candidate_state.candidate_context
               candidate_snapshot := debouncing_candidate_state.candidate_snapshot }
      else none
    { next_state := .DebouncingCandidate debouncing_candidate_state
      emission_candidate := emission_candidate }

/-! ### macOS capture pipeline (`macos.rs`)

The AppKit / ApplicationServices / CoreGraphics calls are abstracted as
an environment record describing what the OS would answer during one
capture; every string the OS hands back is kept raw and the code's
normalization is applied inside the embedded pipeline, mirroring the
source. -/

/-- Result of `NSWorkspace::frontmostApplication` together with the
attribute reads performed on it. -/
structure MacFrontmostApplication where
  localizedName : Option (List Char)
  bundleIdentifier : Option (List Char)
  processIdentifier : Int
deriving DecidableEq, Repr

/-- Raw string results of the two `AXUIElementCopyAttributeValue` reads
on the focused-window accessibility element (`none` models a failed
copy or a non-string value). -/
structure MacAccessibilityAttributes where
  axTitleRaw : Option (List Char)
  axDocumentRaw : Option (List Char)
deriving DecidableEq, Repr

/-- One entry of the CoreGraphics window list, with each dictionary
field best-effort (`none` models a missing key or a type mismatch). -/
structure MacWindowInfo where
  ownerPid : Option Int
  layer : Option Int
  nameRaw : Option (List Char)
deriving DecidableEq, Repr

/-- Environment for one macOS capture: `axFocusedElement = some _`
models that `AXUIElementCreateApplication` and the focused-window (or
focused-UI-element) lookup both succeeded; `cgWindowList = none` models
a failed `copy_window_info`. -/
structure MacCaptureEnv where
  frontmostApplication : Option MacFrontmostApplication
  axProcessTrusted : Bool
  axFocusedElement : Option MacAccessibilityAttributes
  cgWindowList : Option (List MacWindowInfo)
deriving DecidableEq, Repr

/-- `macos.rs::FrontmostApplicationMetadata`. -/
structure FrontmostApplicationMetadata where
  display_name : List Char
  bundle_identifier : Option (List Char)
  process_identifier : Int
deriving DecidableEq, Repr

/-- `macos.rs::AccessibilityFocusedWindowDetails`. -/
structure AccessibilityFocusedWindowDetails where
  focused_window_title : Option (List Char)
  focused_document_url : Option (List Char)
deriving DecidableEq, Repr

/-- `macos.rs::supported_browser_from_bundle_identifier`. -/
def supported_browser_from_bundle_identifier (bundle_identifier : List Char) :
    Option SupportedBrowser :=
  if bundle_identifier = "com.apple.Safari".data then some .Safari
  else if bundle_identifier = "com.google.Chrome".data then some .GoogleChrome
  else if bundle_identifier = "com.microsoft.edgemac".data then some .MicrosoftEdge
  else if bundle_identifier = "com.brave.Browser".data then some .BraveBrowser
  else if bundle_identifier = "company.thebrowser.Browser".data then some .Arc
  else if bundle_identifier = "org.mozilla.firefox".data then some .Firefox
  else if bundle_identifier = "com.operasoftware.Opera".data then some .Opera
  else if bundle_identifier = "com.vivaldi.Vivaldi".data then some .Vivaldi
  else if bundle_identifier = "org.chromium.Chromium".data then some .Chromium
  else none

/-- `macos.rs::get_accessibility_focused_window_details`: each of the
two attribute reads goes through
`copy_accessibility_string_attribute_value`, which normalizes. -/
def get_accessibility_focused_window_details (env : MacCaptureEnv) :
    Option AccessibilityFocusedWindowDetails :=
  env.axFocusedElement.map fun attrs =>
    { focused_window_title := attrs.axTitleRaw.bind normalize_non_empty_focus_text
      focused_document_url := attrs.axDocumentRaw.bind normalize_non_empty_focus_text }

/-- `macos.rs::get_accessibility_focused_window_details_for_frontmost_application`. -/
def get_accessibility_focused_window_details_for_frontmost_application
    (env : MacCaptureEnv) : Option AccessibilityFocusedWindowDetails :=
  if !env.axProcessTrusted then none
  else
    match env.frontmostApplication with
    | none => none
    | some _ => get_accessibility_focused_window_details env

/-- Loop body of `macos.rs::get_frontmost_window_title_from_core_graphics`:
skip windows of other processes or non-zero layers, return the first
normalized non-empty window name. -/
def cgWindowTitleLoop (frontmost_process_identifier : Int) :
    List MacWindowInfo → Option (List Char)
  | [] => none
  | w :: rest =>
    if w.ownerPid ≠ some frontmost_process_identifier then
      cgWindowTitleLoop frontmost_process_identifier rest
    else if w.layer ≠ some 0 then
      cgWindowTitleLoop frontmost_process_identifier rest
    else
      match w.nameRaw.bind normalize_non_empty_focus_text with
      | some window_title => some window_title
      | none => cgWindowTitleLoop frontmost_process_identifier rest

/-- `macos.rs::get_frontmost_window_title_from_core_graphics`. -/
def get_frontmost_window_title_from_core_graphics (env : MacCaptureEnv)
    (frontmost_process_identifier : Int) : Option (List Char) :=
  match env.cgWindowList with
  | none => none
  | some window_info_array => cgWindowTitleLoop frontmost_process_identifier window_info_array

/-- `macos.rs::collect_frontmost_application_metadata`. -/
def collect_frontmost_application_metadata (env : MacCaptureEnv) :
    Option FrontmostApplicationMetadata :=
  env.frontmostApplication.map fun frontmost_application =>
    { display_name := frontmost_application.localizedName.getD "Unknown".data
      bundle_identifier := frontmost_application.bundleIdentifier
      process_identifier := frontmost_application.processIdentifier }

/-- `macos.rs::build_focused_application`. -/
def build_focused_application
    (frontmost_application_metadata : Option FrontmostApplicationMetadata) :
    Option FocusedApplication :=
  frontmost_application_metadata.map fun metadata =>
    { display_name := metadata.display_name
      bundle_id := metadata.bundle_identifier
      process_path := none }

/-- `macos.rs::determine_focused_window_title`. -/
def determine_focused_window_title (env : MacCaptureEnv)
    (frontmost_application_metadata : Option FrontmostApplicationMetadata)
    (accessibility_focused_window_details : Option AccessibilityFocusedWindowDetails) :
    Option (List Char) :=
  match accessibility_focused_window_details.bind
      (fun details => details.focused_window_title) with
  | some title => some title
  | none =>
    frontmost_application_metadata.bind fun metadata =>
      get_frontmost_window_title_from_core_graphics env metadata.process_identifier

/-- `macos.rs::build_focused_browser_tab`. -/
def build_focused_browser_tab
    (frontmost_application_metadata : Option FrontmostApplicationMetadata)
    (focused_window_title : Option (List Char))
    (accessibility_focused_window_details : Option AccessibilityFocusedWindowDetails) :
    Option FocusedBrowserTab :=
  match frontmost_application_metadata.bind
      (fun metadata => metadata.bundle_identifier.bind
        supported_browser_from_bundle_identifier) with
  | none => none
  | some supported_browser =>
    let normalized_browser_document_origin :=
      (accessibility_focused_window_details.bind
        (fun details => details.focused_document_url)).bind
        normalize_browser_document_origin
    let inferred_browser_tab_title :=
      infer_browser_tab_title_from_window_title focused_window_title
        supported_browser.display_name
    if inferred_browser_tab_title.isNone && normalized_browser_document_origin.isNone then
      none
    else
      some { title := inferred_browser_tab_title
             origin := normalized_browser_document_origin
             browser := some supported_browser.display_name }

/-- `macos.rs::get_current_active_app_context`, with `chrono::Utc::now`
passed in as `captured_at`. -/
def macos_get_current_active_app_context (env : MacCaptureEnv)
    (captured_at : List Char) : ActiveAppContextSnapshot :=
  let frontmost_application_metadata := collect_frontmost_application_metadata env
  let accessibility_focused_window_details :=
    get_accessibility_focused_window_details_for_frontmost_application env
  let focused_application := build_focused_application frontmost_application_metadata
  let focused_window_title :=
    determine_focused_window_title env frontmost_application_metadata
      accessibility_focused_window_details
  let focused_window := focused_window_title.map fun title => FocusedWindow.mk title
  let focused_browser_tab :=
    build_focused_browser_tab frontmost_application_metadata focused_window_title
      accessibility_focused_window_details
  let focused_browser_origin_is_present :=
    (focused_browser_tab.bind (fun tab => tab.origin)).isSome
  let event_source : FocusEventSource :=
    if accessibility_focused_window_details.isSome then .Accessibility else .Polling
  let confidence_level :=
    determine_focus_confidence_level focused_window.isSome focused_browser_tab.isSome
      focused_browser_origin_is_present
  { focused_application := focused_application
    focused_window := focused_window
    focused_browser_tab := focused_browser_tab
    event_source := event_source
    confidence_level := confidence_level
    captured_at := captured_at }

/-! ### Windows capture pipeline (`windows.rs`)

The Win32 / COM / UI-Automation calls are abstracted as an environment
record; raw BSTR values are kept raw and the code's
`bstr_to_non_empty_focus_text` normalization runs inside the embedded
pipeline. -/

/-- One edit control found by the UI-Automation `FindAll`:
`elementAvailable = false` models a failed `GetElement`;
`valuePatternAvailable = false` a failed `GetCurrentPatternAs`; raw
property reads are `none` when the COM call failed. -/
structure WinEditControl where
  elementAvailable : Bool
  automationIdRaw : Option (List Char)
  nameRaw : Option (List Char)
  valuePatternAvailable : Bool
  valueRaw : Option (List Char)
deriving DecidableEq, Repr

/-- Environment for one Windows capture: `foregroundWindow = false`
models a null `GetForegroundWindow`; `windowText` is the decoded
`GetWindowTextW` buffer (`[]` when the call returned a non-positive
length — a positive length always decodes to a non-empty string);
`processPath` is the `QueryFullProcessImageNameW` result;
`uiaSession = none` models a failure anywhere in COM initialization,
client creation, `ElementFromHandle`, condition creation, `FindAll` or
`Length`. -/
structure WinCaptureEnv where
  foregroundWindow : Bool
  windowText : List Char
  processPath : Option (List Char)
  uiaSession : Option (List WinEditControl)
deriving DecidableEq, Repr

/-- `windows.rs::get_window_title`: `Some` exactly when `GetWindowTextW`
returned a positive length; the text is not normalized. -/
def get_window_title (env : WinCaptureEnv) : Option (List Char) :=
  if env.windowText.isEmpty then none else some env.windowText

/-- Last path component of a Windows path (portion after the final
`'\'` or `'/'`), for `Path::file_name`. -/
def winLastComponent (path : List Char) : List Char :=
  ((path.reverse.takeWhile (fun c => c ≠ '\\' ∧ c ≠ '/'))).reverse

/-- `std::path::Path::file_stem` on the process path: the last
component without the extension after its final `'.'`; a dot-file keeps
its whole name.  (Exotic `Path` corner cases — empty or `".."` final
components — yield `none` as in Rust; Windows prefix-component parsing
beyond separators is not modelled, no claim depends on it.) -/
def winFileStem (path : List Char) : Option (List Char) :=
  let file_name := winLastComponent path
  if file_name.isEmpty || file_name = "..".data then none
  else
    let before_dot := (file_name.reverse.dropWhile (fun c => c ≠ '.')).drop 1 |>.reverse
    if before_dot.isEmpty then some file_name
    else some before_dot

/-- `windows.rs::get_application_display_name`. -/
def get_application_display_name (process_path : List Char) : List Char :=
  (winFileStem process_path).getD process_path

/-- `windows.rs::supported_browser_from_application_name`. -/
def supported_browser_from_application_name (application_name : List Char) :
    Option SupportedBrowser :=
  let normalized_application_name := rustToLowercase application_name
  if normalized_application_name = "chrome".data then some .GoogleChrome
  else if normalized_application_name = "msedge".data ∨
      normalized_application_name = "edge".data then some .MicrosoftEdge
  else if normalized_application_name = "brave".data then some .BraveBrowser
  else if normalized_application_name = "opera".data ∨
      normalized_application_name = "opera_gx".data then some .Opera
  else if normalized_application_name = "arc".data then some .Arc
  else if normalized_application_name = "vivaldi".data then some .Vivaldi
  else if normalized_application_name = "chromium".data then some .Chromium
  else if normalized_application_name = "firefox".data then some .Firefox
  else none

/-- `windows.rs::is_likely_browser_address_bar_candidate`. -/
def is_likely_browser_address_bar_candidate
    (automation_id control_name : Option (List Char)) : Bool :=
  let normalized_automation_id := automation_id.map rustToLowercase
  let normalized_control_name := control_name.map rustToLowercase
  let automation_id_contains_address_bar_marker :=
    match normalized_automation_id with
    | none => false
    | some a =>
      ["address", "searchbox", "urlbar", "omnibox"].any fun marker =>
        containsSubstr marker.data a
  if automation_id_contains_address_bar_marker then true
  else
    match normalized_control_name with
    | none => false
    | some n =>
      ["address and search bar", "search or enter address",
       "search with google or enter address", "address bar"].any fun marker =>
        containsSubstr marker.data n

/-- `windows.rs::extract_normalized_origin_from_edit_control`. -/
def extract_normalized_origin_from_edit_control (ctl : WinEditControl) :
    Option (List Char) :=
  if !ctl.valuePatternAvailable then none
  else
    let raw_address_bar_value := ctl.valueRaw.bind normalize_non_empty_focus_text
    raw_address_bar_value.bind normalize_browser_document_origin

/-- Loop of `windows.rs::extract_browser_document_origin_from_uia` over
the edit controls found in the window subtree. -/
def uiaOriginLoop : List WinEditControl → Option (List Char)
  | [] => none
  | ctl :: rest =>
    if !ctl.elementAvailable then uiaOriginLoop rest
    else
      let automation_id := ctl.automationIdRaw.bind normalize_non_empty_focus_text
      let control_name := ctl.nameRaw.bind normalize_non_empty_focus_text
      if !is_likely_browser_address_bar_candidate automation_id control_name then
        uiaOriginLoop rest
      else
        match extract_normalized_origin_from_edit_control ctl with
        | some normalized_document_origin => some normalized_document_origin
        | none => uiaOriginLoop rest

/-- `windows.rs::extract_browser_document_origin_from_uia`. -/
def extract_browser_document_origin_from_uia (env : WinCaptureEnv) :
    Option (List Char) :=
  match env.uiaSession with
  | none => none
  | some edit_control_elements =>
    if edit_control_elements.length = 0 then none
    else uiaOriginLoop edit_control_elements

/-- `windows.rs::get_current_active_app_context`, with
`chrono::Utc::now` passed in as `captured_at`. -/
def windows_get_current_active_app_context (env : WinCaptureEnv)
    (captured_at : List Char) : ActiveAppContextSnapshot :=
  if !env.foregroundWindow then
    { focused_application := none
      focused_window := none
      focused_browser_tab := none
      event_source := .Polling
      confidence_level := .Low
      captured_at := captured_at }
  else
    let window_title := get_window_title env
    let process_path := env.processPath
    let focused_application := process_path.map fun path =>
      { display_name := get_application_display_name path
        bundle_id := none
        process_path := some path : FocusedApplication }
    let focused_window := window_title.map fun title => FocusedWindow.mk title
    let supported_browser := focused_application.bind fun application =>
      supported_browser_from_application_name application.display_name
    let browser_tab_title := supported_browser.bind fun browser =>
      infer_browser_tab_title_from_window_title window_title browser.display_name
    let browser_document_origin := supported_browser.bind fun _ =>
      extract_browser_document_origin_from_uia env
    let focused_browser_tab := supported_browser.bind fun browser =>
      if browser_tab_title.isNone && browser_document_origin.isNone then none
      else
        some { title := browser_tab_title
               origin := browser_document_origin
               browser := some browser.display_name : FocusedBrowserTab }
    let event_source : FocusEventSource :=
      if (focused_browser_tab.bind (fun tab => tab.origin)).isSome then .Uia
      else .Polling
    let confidence_level :=
      determine_focus_confidence_level focused_window.isSome focused_browser_tab.isSome
        (focused_browser_tab.bind (fun tab => tab.origin)).isSome
    { focused_application := focused_application
      focused_window := focused_window
      focused_browser_tab := focused_browser_tab
      event_source := event_source
      confidence_level := confidence_level
      captured_at := captured_at }

/-! ### Derived classification views and claim-side definitions -/

/-- The browser classification the macOS pipeline performs: bundle
identifier of the frontmost application looked up in the fixed table. -/
def macSupportedBrowserClassification (env : MacCaptureEnv) : Option SupportedBrowser :=
  (collect_frontmost_application_metadata env).bind fun metadata =>
    metadata.bundle_identifier.bind supported_browser_from_bundle_identifier

/-- The browser classification the Windows pipeline performs:
executable base name of the foreground process looked up in the fixed
table. -/
def winSupportedBrowserClassification (env : WinCaptureEnv) : Option SupportedBrowser :=
  env.processPath.bind fun path =>
    supported_browser_from_application_name (get_application_display_name path)

/-- Stated from the claim's words for the scheme-less branch of
`normalize_origin`: reject on whitespace in the trimmed text, take the
authority up to the first `'/'`, `'?'` or `'#'`, the bare host before
the first `':'`, and accept exactly when the host contains a `'.'`,
equals `localhost` case-insensitively, or parses as an IP address. -/
def claimedSchemeLessOrigin (s : List Char) : Option (List Char) :=
  let t := rustTrim s
  if t.any rustIsWhitespace then none
  else
    let authority := t.take ((findCharIdx isAuthorityEnd t).getD t.length)
    let host := authority.takeWhile (fun c => c ≠ ':')
    if host.any (fun c => c = '.') || eqIgnoreAsciiCase host "localhost".data
        || isIpAddr host then
      some ("https://".data ++ authority)
    else none

/-! ### Concrete inputs for witnesses and counterexamples -/

/-- A macOS environment in which Safari is frontmost with a working
accessibility path. -/
def macEnvSafari : MacCaptureEnv where
  frontmostApplication :=
    some { localizedName := some "Safari".data
           bundleIdentifier := some "com.apple.Safari".data
           processIdentifier := 7 }
  axProcessTrusted := true
  axFocusedElement :=
    some { axTitleRaw := some "Plan - Safari".data
           axDocumentRaw := some "https://example.com/path?token=abc#s".data }
  cgWindowList := some []

/-- A macOS environment in which the focused-window accessibility
element exists but both attribute reads failed, while the CoreGraphics
fallback supplies the window title. -/
def macEnvAttributesFailed : MacCaptureEnv where
  frontmostApplication :=
    some { localizedName := some "Notes".data
           bundleIdentifier := some "com.apple.Notes".data
           processIdentifier := 3 }
  axProcessTrusted := true
  axFocusedElement := some { axTitleRaw := none, axDocumentRaw := none }
  cgWindowList := some [{ ownerPid := some 3, layer := some 0, nameRaw := some "My Note".data }]

/-- A macOS environment with no frontmost application at all; the other
fields are deliberately populated to show they are ignored. -/
def macEnvNoFrontmost : MacCaptureEnv where
  frontmostApplication := none
  axProcessTrusted := true
  axFocusedElement := some { axTitleRaw := some "ghost".data, axDocumentRaw := none }
  cgWindowList := some [{ ownerPid := some 3, layer := some 0, nameRaw := some "ghost".data }]

/-- A Windows environment in which Chrome is foreground and the address
bar is readable through UI Automation. -/
def winEnvChrome : WinCaptureEnv where
  foregroundWindow := true
  windowText := "Plan - Google Chrome".data
  processPath := some "C:\\Program Files\\Google\\Chrome\\Application\\chrome.exe".data
  uiaSession :=
    some [{ elementAvailable := true
            automationIdRaw := some "omniboxResultView".data
            nameRaw := some "Address and search bar".data
            valuePatternAvailable := true
            valueRaw := some "https://example.com/path?token=abc#s".data }]

/-- A Windows environment with no foreground window; the other fields
are deliberately populated to show they are ignored. -/
def winEnvNoForeground : WinCaptureEnv where
  foregroundWindow := false
  windowText := "ghost".data
  processPath := some "C:\\ghost\\chrome.exe".data
  uiaSession := some []

/-- A Windows environment whose foreground window title is three
spaces: `GetWindowTextW` reports a positive length, so the title is
attached without normalization. -/
def winEnvBlankTitle : WinCaptureEnv where
  foregroundWindow := true
  windowText := "   ".data
  processPath := some "C:\\Windows\\notepad.exe".data
  uiaSession := none

/-- A small snapshot used to drive the watcher transition function. -/
def snapshotA : ActiveAppContextSnapshot where
  focused_application := some { display_name := "Code".data, bundle_id := none, process_path := none }
  focused_window := some { title := "notes.md".data }
  focused_browser_tab := none
  event_source := .Polling
  confidence_level := .Medium
  captured_at := "2026-01-01T00:00:00Z".data

/-- A second snapshot whose comparable context differs from
`snapshotA`. -/
def snapshotB : ActiveAppContextSnapshot where
  focused_application := some { display_name := "Terminal".data, bundle_id := none, process_path := none }
  focused_window := some { title := "shell".data }
  focused_browser_tab := none
  event_source := .Polling
  confidence_level := .Medium
  captured_at := "2026-01-01T00:00:01Z".data

/-- Scheme characters for the well-formedness hypotheses of the
absolute-URL claim: anything except the separator characters, the
authority terminators and whitespace. -/
def isSchemeChar (c : Char) : Bool :=
  !(c = ':' || c = '/' || c = '?' || c = '#' || rustIsWhitespace c)

/-- Authority characters: anything except the authority terminators and
whitespace (a port colon is allowed). -/
def isAuthorityChar (c : Char) : Bool :=
  !(c = '/' || c = '?' || c = '#' || rustIsWhitespace c)

/-- The trailing part of a well-formed URL after the authority: either
nothing, or a path, query or fragment introduced by its marker
character. -/
def restWellFormed : List Char → Bool
  | [] => true
  | c :: _ => isAuthorityEnd c

/-! ### Helper lemmas -/

theorem dropWhile_eq_self_of_all_false {p : Char → Bool} :
    ∀ {l : List Char}, (∀ c ∈ l, p c = false) → l.dropWhile p = l
  | [], _ => rfl
  | c :: t, h => by
    have hc : p c = false := h c (List.mem_cons_self c t)
    simp [List.dropWhile_cons, hc]

theorem trimLeftWs_eq_self_of_no_ws {l : List Char}
    (h : ∀ c ∈ l, rustIsWhitespace c = false) : trimLeftWs l = l :=
  dropWhile_eq_self_of_all_false h

theorem trimRightWs_eq_self_of_no_ws {l : List Char}
    (h : ∀ c ∈ l, rustIsWhitespace c = false) : trimRightWs l = l := by
  unfold trimRightWs
  rw [dropWhile_eq_self_of_all_false, List.reverse_reverse]
  intro c hc
  exact h c (List.mem_reverse.mp hc)

theorem rustTrim_eq_self_of_no_ws {l : List Char}
    (h : ∀ c ∈ l, rustIsWhitespace c = false) : rustTrim l = l := by
  unfold rustTrim
  rw [trimLeftWs_eq_self_of_no_ws h, trimRightWs_eq_self_of_no_ws h]

theorem dropWhile_idem {p : Char → Bool} :
    ∀ (l : List Char), (l.dropWhile p).dropWhile p = l.dropWhile p
  | [] => rfl
  | c :: t => by
    by_cases hc : p c
    · simp [List.dropWhile_cons, hc, dropWhile_idem t]
    · simp [List.dropWhile_cons, hc]

theorem trimRightWs_append (a b : List Char) :
    trimRightWs (a ++ b) =
      if (trimRightWs b).isEmpty then trimRightWs a else a ++ trimRightWs b := by
  unfold trimRightWs
  rw [List.reverse_append, List.dropWhile_append]
  by_cases hb : b.reverse.dropWhile rustIsWhitespace = []
  · rw [if_pos (by simp [hb]), if_pos (by simp [hb])]
  · rw [if_neg (by simp [hb]), if_neg (by simp [hb]), List.reverse_append,
      List.reverse_reverse]

theorem length_trimLeftWs_le : ∀ (l : List Char), (trimLeftWs l).length ≤ l.length
  | [] => Nat.le_refl 0
  | c :: t => by
    by_cases hc : rustIsWhitespace c
    · simp only [trimLeftWs, List.dropWhile_cons, hc, if_true]
      exact Nat.le_trans (length_trimLeftWs_le t) (Nat.le_succ _)
    · simp [trimLeftWs, List.dropWhile_cons, hc]

theorem trimLeftWs_of_trimLeft_fixed {l : List Char} (h : trimLeftWs l = l) :
    trimLeftWs (trimRightWs l) = trimRightWs l := by
  cases l with
  | nil => rfl
  | cons c t =>
    have hc : rustIsWhitespace c = false := by
      cases hx : rustIsWhitespace c
      · rfl
      · exfalso
        have h2 : trimLeftWs (c :: t) = trimLeftWs t := by
          simp [trimLeftWs, List.dropWhile_cons, hx]
        rw [h2] at h
        have hlen := congrArg List.length h
        have hle : (trimLeftWs t).length ≤ t.length := length_trimLeftWs_le t
        simp only [List.length_cons] at hlen
        omega
    have hsplit := trimRightWs_append [c] t
    simp only [List.singleton_append] at hsplit
    rw [hsplit]
    by_cases ht : (trimRightWs t).isEmpty
    · rw [if_pos ht]
      simp [trimRightWs, trimLeftWs, List.dropWhile_cons, hc]
    · rw [if_neg ht]
      simp [trimLeftWs, List.dropWhile_cons, hc]

theorem trimRightWs_idem (l : List Char) : trimRightWs (trimRightWs l) = trimRightWs l := by
  unfold trimRightWs
  rw [List.reverse_reverse, dropWhile_idem]

theorem trimLeftWs_rustTrim (l : List Char) : trimLeftWs (rustTrim l) = rustTrim l := by
  unfold rustTrim
  exact trimLeftWs_of_trimLeft_fixed (dropWhile_idem l)

theorem rustTrim_idem (l : List Char) : rustTrim (rustTrim l) = rustTrim l := by
  conv_lhs => rw [rustTrim, trimLeftWs_rustTrim]
  rw [rustTrim, trimRightWs_idem]

theorem normalize_some_eq_trim {raw r : List Char}
    (h : normalize_non_empty_focus_text raw = some r) :
    r = rustTrim raw ∧ rustTrim r = r ∧ r ≠ [] := by
  unfold normalize_non_empty_focus_text at h
  by_cases he : (rustTrim raw).isEmpty
  · rw [if_pos he] at h
    exact absurd h (by simp)
  · rw [if_neg he] at h
    have hr : r = rustTrim raw := by
      cases h
      rfl
    refine ⟨hr, ?_, ?_⟩
    · rw [hr]
      exact rustTrim_idem raw
    · rw [hr]
      simpa [List.isEmpty_iff] using he

theorem findCharIdx_append_allFalse {p : Char → Bool} :
    ∀ (a b : List Char), (∀ c ∈ a, p c = false) →
      findCharIdx p (a ++ b) = (findCharIdx p b).map (· + a.length)
  | [], b, _ => by
    cases hb : findCharIdx p b <;> simp [hb]
  | c :: a', b, h => by
    have hc : p c = false := h c (List.mem_cons_self c a')
    have ih := findCharIdx_append_allFalse a' b (fun x hx => h x (List.mem_cons_of_mem c hx))
    rw [List.cons_append]
    simp only [findCharIdx, hc, Bool.false_eq_true, if_false, ih]
    cases hb : findCharIdx p b with
    | none => simp
    | some i =>
      simp only [Option.map_some', List.length_cons, Option.some.injEq]
      omega

theorem sep_data_eq : "://".data = [':', '/', '/'] := rfl

theorem findSubstring_sep (r : List Char) :
    ∀ (a : List Char), (∀ c ∈ a, c ≠ ':') →
      findSubstring [':', '/', '/'] (a ++ ':' :: '/' :: '/' :: r) = some a.length
  | [], _ => by
    have hpref : ([':', '/', '/']).isPrefixOf (':' :: '/' :: '/' :: r) = true := by
      rw [List.isPrefixOf_iff_prefix]
      exact ⟨r, rfl⟩
    rw [List.nil_append]
    simp [findSubstring, hpref]
  | c :: a', h => by
    have hc : c ≠ ':' := h c (List.mem_cons_self c a')
    have ih := findSubstring_sep r a' (fun x hx => h x (List.mem_cons_of_mem c hx))
    have hnp : ([':', '/', '/']).isPrefixOf (c :: (a' ++ ':' :: '/' :: '/' :: r)) = false := by
      cases hx : ([':', '/', '/']).isPrefixOf (c :: (a' ++ ':' :: '/' :: '/' :: r))
      · rfl
      · exfalso
        rw [List.isPrefixOf_iff_prefix] at hx
        obtain ⟨tail, htail⟩ := hx
        have hhead : ':' = c := by
          have h0 := congrArg (fun l => l.head?) htail
          simpa using h0
        exact hc hhead.symm
    rw [List.cons_append]
    simp [findSubstring, hnp, ih]

theorem takeWhile_append_stop {p : Char → Bool} :
    ∀ (a : List Char) {x : Char} (y : List Char), (∀ c ∈ a, p c = true) → p x = false →
      (a ++ x :: y).takeWhile p = a
  | [], x, y, _, hx => by simp [List.takeWhile_cons, hx]
  | c :: a', x, y, h, hx => by
    have hc : p c = true := h c (List.mem_cons_self c a')
    have ih := takeWhile_append_stop a' y (fun d hd => h d (List.mem_cons_of_mem c hd)) hx
    simp [List.takeWhile_cons, hc, ih]

theorem stripSuffixCh_append (r sfx : List Char) : stripSuffixCh sfx (r ++ sfx) = some r := by
  unfold stripSuffixCh
  have hsfx : sfx.isSuffixOf (r ++ sfx) = true := by
    rw [List.isSuffixOf_iff_suffix]
    exact ⟨r, rfl⟩
  rw [if_pos hsfx, List.length_append, Nat.add_sub_cancel, List.take_left]

theorem stripSuffixCh_eq_none {sfx t : List Char} (h : ∀ r, t ≠ r ++ sfx) :
    stripSuffixCh sfx t = none := by
  unfold stripSuffixCh
  have hsfx : sfx.isSuffixOf t = false := by
    cases hx : sfx.isSuffixOf t
    · rfl
    · exfalso
      rw [List.isSuffixOf_iff_suffix] at hx
      obtain ⟨r, hr⟩ := hx
      exact h r hr.symm
  rw [hsfx]
  simp

theorem cgWindowTitleLoop_normalized {pid : Int} :
    ∀ {l : List MacWindowInfo} {ti : List Char}, cgWindowTitleLoop pid l = some ti →
      ∃ raw, normalize_non_empty_focus_text raw = some ti
  | [], ti, h => by simp [cgWindowTitleLoop] at h
  | w :: rest, ti, h => by
    unfold cgWindowTitleLoop at h
    by_cases h1 : w.ownerPid ≠ some pid
    · rw [if_pos h1] at h
      exact cgWindowTitleLoop_normalized h
    · rw [if_neg h1] at h
      by_cases h2 : w.layer ≠ some 0
      · rw [if_pos h2] at h
        exact cgWindowTitleLoop_normalized h
      · rw [if_neg h2] at h
        cases hn : w.nameRaw.bind normalize_non_empty_focus_text with
        | none =>
          rw [hn] at h
          exact cgWindowTitleLoop_normalized h
        | some t' =>
          rw [hn] at h
          cases h
          obtain ⟨raw, _, hraw⟩ := Option.bind_eq_some.mp hn
          exact ⟨raw, hraw⟩

theorem process_awaiting_eq (snap : ActiveAppContextSnapshot) (now w : Nat) :
    process_focus_snapshot_poll .AwaitingInitialEmission snap now w =
      { next_state := .DebouncingCandidate
          { candidate_context := comparableOfSnapshot snap
            candidate_snapshot := snap
            first_seen_at := now }
        emission_candidate := none } := rfl

theorem process_stable_same (ctx : ComparableActiveAppContext)
    (snap : ActiveAppContextSnapshot) (now w : Nat)
    (h : comparableOfSnapshot snap = ctx) :
    process_focus_snapshot_poll (.StableEmitted ctx) snap now w =
      { next_state := .StableEmitted ctx, emission_candidate := none } := by
  simp only [process_focus_snapshot_poll]
  rw [if_pos h.symm]

theorem process_stable_diff (ctx : ComparableActiveAppContext)
    (snap : ActiveAppContextSnapshot) (now w : Nat)
    (h : comparableOfSnapshot snap ≠ ctx) :
    process_focus_snapshot_poll (.StableEmitted ctx) snap now w =
      { next_state := .DebouncingCandidate
          { candidate_context := comparableOfSnapshot snap
            candidate_snapshot := snap
            first_seen_at := now }
        emission_candidate := none } := by
  simp only [process_focus_snapshot_poll]
  rw [if_neg (Ne.symm h)]

theorem process_debouncing_same (st : DebouncingCandidateState)
    (snap : ActiveAppContextSnapshot) (now w : Nat)
    (h : comparableOfSnapshot snap = st.candidate_context) :
    process_focus_snapshot_poll (.DebouncingCandidate st) snap now w =
      { next_state := .DebouncingCandidate
          { candidate_context := st.candidate_context
            candidate_snapshot := snap
            first_seen_at := st.first_seen_at }
        emission_candidate :=
          if w ≤ now - st.first_seen_at then
            some { candidate_context := st.candidate_context, candidate_snapshot := snap }
          else none } := by
  simp only [process_focus_snapshot_poll]
  rw [if_pos h.symm]

theorem process_debouncing_diff (st : DebouncingCandidateState)
    (snap : ActiveAppContextSnapshot) (now w : Nat)
    (h : comparableOfSnapshot snap ≠ st.candidate_context) :
    process_focus_snapshot_poll (.DebouncingCandidate st) snap now w =
      { next_state := .DebouncingCandidate
          { candidate_context := comparableOfSnapshot snap
            candidate_snapshot := snap
            first_seen_at := now }
        emission_candidate :=
          if w = 0 then
            some { candidate_context := comparableOfSnapshot snap, candidate_snapshot := snap }
          else none } := by
  simp only [process_focus_snapshot_poll]
  rw [if_neg (Ne.symm h)]
  simp [Nat.sub_self, Nat.le_zero]

/-! ### Claim theorems -/

/-- C1, counterexample.  The claim's row (iv) — a differing candidate is
replaced "and produces no emission this tick" for every debounce
window — fails for a zero debounce window: the replacement tick already
satisfies `now − first_seen_at ≥ debounce_window` (`0 ≥ 0`) and an
emission candidate for the brand-new context is produced immediately. -/
theorem c1_zero_window_counterexample :
    comparableOfSnapshot snapshotB ≠ comparableOfSnapshot snapshotA ∧
    (process_focus_snapshot_poll
      (.DebouncingCandidate
        { candidate_context := comparableOfSnapshot snapshotA
          candidate_snapshot := snapshotA
          first_seen_at := 10 })
      snapshotB 20 0).emission_candidate =
      some { candidate_context := comparableOfSnapshot snapshotB
             candidate_snapshot := snapshotB } := by
  constructor
  · decide
  · rfl

/-- C1, amended.  `process_focus_snapshot_poll` realizes the 3-state
debounce table: (i) `AwaitingInitialEmission` moves to
`DebouncingCandidate(new context, now)` with no emission; (ii)
`StableEmitted(ctx)` stays with no emission on an equal context and
moves to `DebouncingCandidate(new context, now)` with no emission
otherwise; (iii) `DebouncingCandidate` with an equal context refreshes
the stored snapshot, keeps the original `first_seen_at`, stays in
`DebouncingCandidate`, and emits iff `now − first_seen_at ≥
debounce_window` (saturating subtraction); (iv) `DebouncingCandidate`
with a differing context replaces the candidate with
`first_seen_at = now` and produces no emission this tick *unless the
debounce window is zero*, in which case the new candidate is emitted
immediately. -/
theorem c1_watcher_transition_table :
    (∀ (snap : ActiveAppContextSnapshot) (now w : Nat),
      process_focus_snapshot_poll .AwaitingInitialEmission snap now w =
        { next_state := .DebouncingCandidate
            { candidate_context := comparableOfSnapshot snap
              candidate_snapshot := snap
              first_seen_at := now }
          emission_candidate := none }) ∧
    (∀ (ctx : ComparableActiveAppContext) (snap : ActiveAppContextSnapshot) (now w : Nat),
      comparableOfSnapshot snap = ctx →
      process_focus_snapshot_poll (.StableEmitted ctx) snap now w =
        { next_state := .StableEmitted ctx, emission_candidate := none }) ∧
    (∀ (ctx : ComparableActiveAppContext) (snap : ActiveAppContextSnapshot) (now w : Nat),
      comparableOfSnapshot snap ≠ ctx →
      process_focus_snapshot_poll (.StableEmitted ctx) snap now w =
        { next_state := .DebouncingCandidate
            { candidate_context := comparableOfSnapshot snap
              candidate_snapshot := snap
              first_seen_at := now }
          emission_candidate := none }) ∧
    (∀ (st : DebouncingCandidateState) (snap : ActiveAppContextSnapshot) (now w : Nat),
      comparableOfSnapshot snap = st.candidate_context →
      process_focus_snapshot_poll (.DebouncingCandidate st) snap now w =
        { next_state := .DebouncingCandidate
            { candidate_context := st.candidate_context
              candidate_snapshot := snap
              first_seen_at := st.first_seen_at }
          emission_candidate :=
            if w ≤ now - st.first_seen_at then
              some { candidate_context := st.candidate_context, candidate_snapshot := snap }
            else none }) ∧
    (∀ (st : DebouncingCandidateState) (snap : ActiveAppContextSnapshot) (now w : Nat),
      comparableOfSnapshot snap ≠ st.candidate_context →
      process_focus_snapshot_poll (.DebouncingCandidate st) snap now w =
        { next_state := .DebouncingCandidate
            { candidate_context := comparableOfSnapshot snap
              candidate_snapshot := snap
              first_seen_at := now }
          emission_candidate :=
            if w = 0 then
              some { candidate_context := comparableOfSnapshot snap, candidate_snapshot := snap }
            else none }) :=
  ⟨process_awaiting_eq, process_stable_same, process_stable_diff,
    process_debouncing_same, process_debouncing_diff⟩

/-- Witness for C1: the `StableEmitted`-with-different-context row at
concrete inputs. -/
theorem c1_watcher_transition_table_witness :
    process_focus_snapshot_poll (.StableEmitted (comparableOfSnapshot snapshotA))
      snapshotB 7 75 =
      { next_state := .DebouncingCandidate
          { candidate_context := comparableOfSnapshot snapshotB
            candidate_snapshot := snapshotB
            first_seen_at := 7 }
        emission_candidate := none } :=
  c1_watcher_transition_table.2.2.1 (comparableOfSnapshot snapshotA) snapshotB 7 75
    (by decide)

/-- C8, confirmed.  Starting from `AwaitingInitialEmission` with
debounce window `w`, polling context A at `t0`, context B at `t1` with
`t1 − t0 < w`, then context B again at `t2` with `t2 − t1 ≥ w`,
produces no emission candidate on the first two polls and exactly one
on the third, and it carries context B with snapshot B — an emission of
A is never produced. -/
theorem c8_change_resets_debounce (sA sB : ActiveAppContextSnapshot) (t0 t1 t2 w : Nat)
    (hne : comparableOfSnapshot sA ≠ comparableOfSnapshot sB)
    (h1 : t1 - t0 < w) (h2 : w ≤ t2 - t1) :
    (process_focus_snapshot_poll .AwaitingInitialEmission sA t0 w).emission_candidate
        = none ∧
    (process_focus_snapshot_poll
        (process_focus_snapshot_poll .AwaitingInitialEmission sA t0 w).next_state
        sB t1 w).emission_candidate = none ∧
    (process_focus_snapshot_poll
        (process_focus_snapshot_poll
          (process_focus_snapshot_poll .AwaitingInitialEmission sA t0 w).next_state
          sB t1 w).next_state
        sB t2 w).emission_candidate =
      some { candidate_context := comparableOfSnapshot sB, candidate_snapshot := sB } := by
  have hw : w ≠ 0 := by omega
  have hr1 := process_awaiting_eq sA t0 w
  have hr2 := process_debouncing_diff
    { candidate_context := comparableOfSnapshot sA
      candidate_snapshot := sA
      first_seen_at := t0 } sB t1 w (Ne.symm hne)
  refine ⟨by rw [hr1], ?_, ?_⟩
  · rw [hr1, hr2]
    simp [hw]
  · rw [hr1, hr2]
    have hr3 := process_debouncing_same
      { candidate_context := comparableOfSnapshot sB
        candidate_snapshot := sB
        first_seen_at := t1 } sB t2 w rfl
    rw [hr3]
    simp [h2]

/-- Witness for C8 at concrete snapshots and times
(`t0 = 0`, `t1 = 50`, `t2 = 130`, `w = 75`). -/
theorem c8_change_resets_debounce_witness :
    (process_focus_snapshot_poll .AwaitingInitialEmission snapshotA 0 75).emission_candidate
        = none ∧
    (process_focus_snapshot_poll
        (process_focus_snapshot_poll .AwaitingInitialEmission snapshotA 0 75).next_state
        snapshotB 50 75).emission_candidate = none ∧
    (process_focus_snapshot_poll
        (process_focus_snapshot_poll
          (process_focus_snapshot_poll .AwaitingInitialEmission snapshotA 0 75).next_state
          snapshotB 50 75).next_state
        snapshotB 130 75).emission_candidate =
      some { candidate_context := comparableOfSnapshot snapshotB
             candidate_snapshot := snapshotB } :=
  c8_change_resets_debounce snapshotA snapshotB 0 50 130 75 (by decide) (by decide)
    (by decide)

/-- C7, confirmed.  When no focusable foreground application or window
exists (no frontmost application on macOS, a null foreground window on
Windows), capture still returns a structurally valid snapshot whose
`focused_application`, `focused_window` and `focused_browser_tab` are
all absent, with confidence `Low` and event source `Polling`; the
embedded capture functions are total, so no failure is possible. -/
theorem c7_empty_foreground_snapshot :
    (∀ (env : MacCaptureEnv) (t : List Char), env.frontmostApplication = none →
      macos_get_current_active_app_context env t =
        { focused_application := none
          focused_window := none
          focused_browser_tab := none
          event_source := .Polling
          confidence_level := .Low
          captured_at := t }) ∧
    (∀ (env : WinCaptureEnv) (t : List Char), env.foregroundWindow = false →
      windows_get_current_active_app_context env t =
        { focused_application := none
          focused_window := none
          focused_browser_tab := none
          event_source := .Polling
          confidence_level := .Low
          captured_at := t }) := by
  constructor
  · intro env t h
    have hdetails : get_accessibility_focused_window_details_for_frontmost_application env
        = none := by
      unfold get_accessibility_focused_window_details_for_frontmost_application
      rw [h]
      cases env.axProcessTrusted <;> simp
    unfold macos_get_current_active_app_context
    rw [hdetails]
    unfold collect_frontmost_application_metadata
    rw [h]
    simp [build_focused_application, determine_focused_window_title,
      build_focused_browser_tab, determine_focus_confidence_level]
  · intro env t h
    unfold windows_get_current_active_app_context
    rw [h]
    simp

/-- Witness for C7: both conjuncts applied at concrete environments. -/
theorem c7_empty_foreground_snapshot_witness :
    macos_get_current_active_app_context macEnvNoFrontmost "T".data =
      { focused_application := none
        focused_window := none
        focused_browser_tab := none
        event_source := .Polling
        confidence_level := .Low
        captured_at := "T".data } ∧
    windows_get_current_active_app_context winEnvNoForeground "T".data =
      { focused_application := none
        focused_window := none
        focused_browser_tab := none
        event_source := .Polling
        confidence_level := .Low
        captured_at := "T".data } :=
  ⟨c7_empty_foreground_snapshot.1 macEnvNoFrontmost "T".data rfl,
    c7_empty_foreground_snapshot.2 winEnvNoForeground "T".data rfl⟩

theorem build_focused_browser_tab_classified
    {m : Option FrontmostApplicationMetadata} {ti : Option (List Char)}
    {d : Option AccessibilityFocusedWindowDetails}
    (h : (build_focused_browser_tab m ti d).isSome = true) :
    (m.bind (fun metadata => metadata.bundle_identifier.bind
      supported_browser_from_bundle_identifier)).isSome = true := by
  unfold build_focused_browser_tab at h
  cases hb : m.bind (fun metadata => metadata.bundle_identifier.bind
      supported_browser_from_bundle_identifier) with
  | none =>
    rw [hb] at h
    simp at h
  | some b => simp

theorem macos_capture_focused_browser_tab (env : MacCaptureEnv) (t : List Char) :
    (macos_get_current_active_app_context env t).focused_browser_tab =
      build_focused_browser_tab (collect_frontmost_application_metadata env)
        (determine_focused_window_title env (collect_frontmost_application_metadata env)
          (get_accessibility_focused_window_details_for_frontmost_application env))
        (get_accessibility_focused_window_details_for_frontmost_application env) := rfl

theorem macos_capture_event_source (env : MacCaptureEnv) (t : List Char) :
    (macos_get_current_active_app_context env t).event_source =
      if (get_accessibility_focused_window_details_for_frontmost_application env).isSome
      then .Accessibility else .Polling := rfl

theorem macos_capture_focused_window (env : MacCaptureEnv) (t : List Char) :
    (macos_get_current_active_app_context env t).focused_window =
      (determine_focused_window_title env (collect_frontmost_application_metadata env)
        (get_accessibility_focused_window_details_for_frontmost_application env)).map
        FocusedWindow.mk := rfl

theorem mac_classification_eq (env : MacCaptureEnv) :
    macSupportedBrowserClassification env =
      (collect_frontmost_application_metadata env).bind
        (fun metadata => metadata.bundle_identifier.bind
          supported_browser_from_bundle_identifier) := rfl

/-- C2, confirmed.  On both platforms a browser-tab object can be
attached to a capture only when the foreground process classifies as a
recognized browser — by bundle identifier on macOS, by lowercased
executable base name on Windows; in particular a non-browser foreground
application never yields a browser tab, regardless of the window title
or any other environment content. -/
theorem c2_browser_tab_only_for_recognized_browser :
    (∀ (env : MacCaptureEnv) (t : List Char),
      (macos_get_current_active_app_context env t).focused_browser_tab.isSome = true →
      (macSupportedBrowserClassification env).isSome = true) ∧
    (∀ (env : WinCaptureEnv) (t : List Char),
      (windows_get_current_active_app_context env t).focused_browser_tab.isSome = true →
      (winSupportedBrowserClassification env).isSome = true) := by
  constructor
  · intro env t h
    rw [macos_capture_focused_browser_tab] at h
    rw [mac_classification_eq]
    exact build_focused_browser_tab_classified h
  · intro env t h
    obtain ⟨fg, wt, pp, uia⟩ := env
    cases fg
    · simp [windows_get_current_active_app_context] at h
    · simp only [windows_get_current_active_app_context, Bool.not_true, Bool.false_eq_true,
        if_false] at h
      cases pp with
      | none => simp at h
      | some path =>
        cases hb : supported_browser_from_application_name
            (get_application_display_name path) with
        | none => simp [hb] at h
        | some b => simp [winSupportedBrowserClassification, hb]

/-- Witness for C2: both conjuncts applied at browser environments
(Safari frontmost on macOS, Chrome foreground on Windows). -/
theorem c2_browser_tab_only_for_recognized_browser_witness :
    (macSupportedBrowserClassification macEnvSafari).isSome = true ∧
    (winSupportedBrowserClassification winEnvChrome).isSome = true :=
  ⟨c2_browser_tab_only_for_recognized_browser.1 macEnvSafari "T".data (by decide),
    c2_browser_tab_only_for_recognized_browser.2 winEnvChrome "T".data (by decide)⟩

theorem build_focused_browser_tab_eq_some
    {m : Option FrontmostApplicationMetadata} {ti : Option (List Char)}
    {d : Option AccessibilityFocusedWindowDetails} {tb : FocusedBrowserTab}
    (h : build_focused_browser_tab m ti d = some tb) :
    ∃ b, m.bind (fun metadata => metadata.bundle_identifier.bind
        supported_browser_from_bundle_identifier) = some b ∧
      tb.browser = some b.display_name ∧
      (tb.title.isSome = true ∨ tb.origin.isSome = true) := by
  unfold build_focused_browser_tab at h
  cases hb : m.bind (fun metadata => metadata.bundle_identifier.bind
      supported_browser_from_bundle_identifier) with
  | none =>
    rw [hb] at h
    exact absurd h (by simp)
  | some b =>
    rw [hb] at h
    simp only [] at h
    refine ⟨b, rfl, ?_⟩
    by_cases hcond : ((infer_browser_tab_title_from_window_title ti b.display_name).isNone
        && ((d.bind (fun details => details.focused_document_url)).bind
          normalize_browser_document_origin).isNone) = true
    · rw [if_pos hcond] at h
      exact absurd h (by simp)
    · rw [if_neg hcond] at h
      cases h
      refine ⟨rfl, ?_⟩
      cases hA : infer_browser_tab_title_from_window_title ti b.display_name with
      | some v => left; simp [hA]
      | none =>
        cases hB : (d.bind (fun details => details.focused_document_url)).bind
            normalize_browser_document_origin with
        | some v => right; simp [hB]
        | none => exact absurd (by simp [hA, hB]) hcond

/-- C10, confirmed.  Whenever a capture's browser tab is present, its
`browser` field is populated with the display name of the recognized
browser the foreground process classified as, and at least one of the
tab's `title` and `origin` fields is present — an all-absent shell is
never constructed, on either platform. -/
theorem c10_browser_tab_never_empty_shell :
    (∀ (env : MacCaptureEnv) (t : List Char) (tb : FocusedBrowserTab),
      (macos_get_current_active_app_context env t).focused_browser_tab = some tb →
      ∃ b, macSupportedBrowserClassification env = some b ∧
        tb.browser = some b.display_name ∧
        (tb.title.isSome = true ∨ tb.origin.isSome = true)) ∧
    (∀ (env : WinCaptureEnv) (t : List Char) (tb : FocusedBrowserTab),
      (windows_get_current_active_app_context env t).focused_browser_tab = some tb →
      ∃ b, winSupportedBrowserClassification env = some b ∧
        tb.browser = some b.display_name ∧
        (tb.title.isSome = true ∨ tb.origin.isSome = true)) := by
  constructor
  · intro env t tb h
    rw [macos_capture_focused_browser_tab] at h
    rw [mac_classification_eq]
    exact build_focused_browser_tab_eq_some h
  · intro env t tb h
    obtain ⟨fg, wt, pp, uia⟩ := env
    cases fg
    · simp [windows_get_current_active_app_context] at h
    · simp only [windows_get_current_active_app_context, Bool.not_true, Bool.false_eq_true,
        if_false] at h
      cases pp with
      | none => simp at h
      | some path =>
        cases hb : supported_browser_from_application_name
            (get_application_display_name path) with
        | none => simp [hb] at h
        | some b =>
          simp only [Option.map_some', Option.some_bind, hb] at h
          refine ⟨b, by simp [winSupportedBrowserClassification, hb], ?_⟩
          by_cases hcond : ((infer_browser_tab_title_from_window_title
              (get_window_title ⟨true, wt, some path, uia⟩) b.display_name).isNone
              && (extract_browser_document_origin_from_uia
                ⟨true, wt, some path, uia⟩).isNone) = true
          · rw [if_pos hcond] at h
            exact absurd h (by simp)
          · rw [if_neg hcond] at h
            cases h
            refine ⟨rfl, ?_⟩
            cases hA : infer_browser_tab_title_from_window_title
                (get_window_title ⟨true, wt, some path, uia⟩) b.display_name with
            | some v => left; simp [hA]
            | none =>
              cases hB : extract_browser_document_origin_from_uia
                  ⟨true, wt, some path, uia⟩ with
              | some v => right; simp [hB]
              | none => exact absurd (by simp [hA, hB]) hcond

/-- Witness for C10: both conjuncts applied at browser environments. -/
theorem c10_browser_tab_never_empty_shell_witness :
    (∃ b, macSupportedBrowserClassification macEnvSafari = some b ∧
      (FocusedBrowserTab.mk (some "Plan".data) (some "https://example.com".data)
        (some "Safari".data)).browser = some b.display_name ∧
      ((FocusedBrowserTab.mk (some "Plan".data) (some "https://example.com".data)
        (some "Safari".data)).title.isSome = true ∨
       (FocusedBrowserTab.mk (some "Plan".data) (some "https://example.com".data)
        (some "Safari".data)).origin.isSome = true)) ∧
    (∃ b, winSupportedBrowserClassification winEnvChrome = some b ∧
      (FocusedBrowserTab.mk (some "Plan".data) (some "https://example.com".data)
        (some "Google Chrome".data)).browser = some b.display_name ∧
      ((FocusedBrowserTab.mk (some "Plan".data) (some "https://example.com".data)
        (some "Google Chrome".data)).title.isSome = true ∨
       (FocusedBrowserTab.mk (some "Plan".data) (some "https://example.com".data)
        (some "Google Chrome".data)).origin.isSome = true)) :=
  ⟨c10_browser_tab_never_empty_shell.1 macEnvSafari "T".data _ (by decide),
    c10_browser_tab_never_empty_shell.2 winEnvChrome "T".data _ (by decide)⟩

/-- C5, counterexample.  In `macEnvAttributesFailed` the focused-window
accessibility element exists but both attribute reads fail: the
structured accessibility path produced neither the window title (which
comes from the CoreGraphics fallback) nor any browser-tab origin, yet
the snapshot's event source is `Accessibility`, where the claim's "if
and only if" demands `Polling`. -/
theorem c5_event_source_counterexample :
    (macos_get_current_active_app_context macEnvAttributesFailed "T".data).event_source =
      FocusEventSource.Accessibility ∧
    get_accessibility_focused_window_details_for_frontmost_application
      macEnvAttributesFailed =
      some { focused_window_title := none, focused_document_url := none } ∧
    (macos_get_current_active_app_context macEnvAttributesFailed "T".data).focused_window =
      some { title := "My Note".data } ∧
    (macos_get_current_active_app_context macEnvAttributesFailed "T".data).focused_browser_tab
      = none := by
  refine ⟨rfl, rfl, ?_, rfl⟩
  decide

theorem windows_capture_event_source (env : WinCaptureEnv) (t : List Char) :
    (windows_get_current_active_app_context env t).event_source =
      if ((windows_get_current_active_app_context env t).focused_browser_tab.bind
          (fun tab => tab.origin)).isSome
      then .Uia else .Polling := by
  obtain ⟨fg, wt, pp, uia⟩ := env
  cases fg
  · rfl
  · rfl

/-- C5, amended.  On Windows the event source is `Uia` exactly when the
UI-Automation path produced the browser-tab origin, and `Polling`
otherwise.  On macOS, however, the event source is `Accessibility`
exactly when the accessibility path obtained the focused-window
element — even if both its attribute reads failed and neither the
window title nor any origin came from it — and `Polling` otherwise. -/
theorem c5_event_source_rule :
    (∀ (env : MacCaptureEnv) (t : List Char),
      ((macos_get_current_active_app_context env t).event_source =
          FocusEventSource.Accessibility ↔
        (get_accessibility_focused_window_details_for_frontmost_application env).isSome
          = true) ∧
      ((macos_get_current_active_app_context env t).event_source =
          FocusEventSource.Accessibility ∨
        (macos_get_current_active_app_context env t).event_source =
          FocusEventSource.Polling)) ∧
    (∀ (env : WinCaptureEnv) (t : List Char),
      ((windows_get_current_active_app_context env t).event_source =
          FocusEventSource.Uia ↔
        ((windows_get_current_active_app_context env t).focused_browser_tab.bind
          (fun tab => tab.origin)).isSome = true) ∧
      ((windows_get_current_active_app_context env t).event_source =
          FocusEventSource.Uia ∨
        (windows_get_current_active_app_context env t).event_source =
          FocusEventSource.Polling)) := by
  constructor
  · intro env t
    rw [macos_capture_event_source]
    cases h : (get_accessibility_focused_window_details_for_frontmost_application env).isSome
    · simp
    · simp
  · intro env t
    rw [windows_capture_event_source]
    cases h : ((windows_get_current_active_app_context env t).focused_browser_tab.bind
        (fun tab => tab.origin)).isSome
    · simp
    · simp

/-- C9, counterexample.  On Windows the foreground window title is used
exactly as `GetWindowTextW` returns it, with no trimming: a title of
three spaces yields a present `FocusedWindow` whose title trims to
empty, where the claim demands a non-empty title after trimming. -/
theorem c9_untrimmed_title_counterexample :
    (windows_get_current_active_app_context winEnvBlankTitle "T".data).focused_window =
      some { title := "   ".data } ∧
    rustTrim "   ".data = [] := by
  constructor
  · rfl
  · decide

theorem accessibility_details_title_normalized {env : MacCaptureEnv}
    {details : AccessibilityFocusedWindowDetails} {ti : List Char}
    (hd : get_accessibility_focused_window_details_for_frontmost_application env
      = some details)
    (ht : details.focused_window_title = some ti) :
    ∃ raw, normalize_non_empty_focus_text raw = some ti := by
  unfold get_accessibility_focused_window_details_for_frontmost_application at hd
  by_cases htr : env.axProcessTrusted
  · rw [if_neg (by simp [htr])] at hd
    cases hf : env.frontmostApplication with
    | none =>
      rw [hf] at hd
      exact absurd hd (by simp)
    | some app =>
      rw [hf] at hd
      unfold get_accessibility_focused_window_details at hd
      obtain ⟨attrs, _, hmap⟩ := Option.map_eq_some'.mp hd
      rw [← hmap] at ht
      simp only at ht
      exact Option.bind_eq_some.mp ht |>.elim (fun raw hraw => ⟨raw, hraw.2⟩)
  · rw [if_pos (by simp [htr])] at hd
    exact absurd hd (by simp)

theorem determine_focused_window_title_normalized {env : MacCaptureEnv}
    {m : Option FrontmostApplicationMetadata} {ti : List Char}
    (h : determine_focused_window_title env m
      (get_accessibility_focused_window_details_for_frontmost_application env) = some ti) :
    ∃ raw, normalize_non_empty_focus_text raw = some ti := by
  unfold determine_focused_window_title at h
  cases hx : (get_accessibility_focused_window_details_for_frontmost_application env).bind
      (fun details => details.focused_window_title) with
  | some t' =>
    rw [hx] at h
    cases h
    obtain ⟨details, hd, ht⟩ := Option.bind_eq_some.mp hx
    exact accessibility_details_title_normalized hd ht
  | none =>
    rw [hx] at h
    obtain ⟨metadata, _, hcg⟩ := Option.bind_eq_some.mp h
    unfold get_frontmost_window_title_from_core_graphics at hcg
    cases hw : env.cgWindowList with
    | none =>
      rw [hw] at hcg
      exact absurd hcg (by simp)
    | some window_info_array =>
      rw [hw] at hcg
      exact cgWindowTitleLoop_normalized hcg

/-- C9, amended.  A `FocusedWindow` is attached only when a window
title was determined, and a present title is never the empty string;
but only macOS normalizes it (trimming whitespace and treating
whitespace-only results as absent), so only there is a present title
non-empty after trimming — on Windows the title is the raw
`GetWindowTextW` text and may consist entirely of whitespace. -/
theorem c9_focused_window_title_nonempty :
    (∀ (env : WinCaptureEnv) (t : List Char) (w : FocusedWindow),
      (windows_get_current_active_app_context env t).focused_window = some w →
      w.title ≠ []) ∧
    (∀ (env : MacCaptureEnv) (t : List Char) (w : FocusedWindow),
      (macos_get_current_active_app_context env t).focused_window = some w →
      rustTrim w.title = w.title ∧ w.title ≠ []) := by
  constructor
  · intro env t w h
    obtain ⟨fg, wt, pp, uia⟩ := env
    cases fg
    · simp [windows_get_current_active_app_context] at h
    · simp only [windows_get_current_active_app_context, Bool.not_true, Bool.false_eq_true,
        if_false] at h
      unfold get_window_title at h
      by_cases hw : wt.isEmpty
      · rw [if_pos (by simpa using hw)] at h
        simp at h
      · rw [if_neg (by simpa using hw)] at h
        simp only [Option.map_some'] at h
        cases h
        simpa [List.isEmpty_iff] using hw
  · intro env t w h
    rw [macos_capture_focused_window] at h
    obtain ⟨ti, hti, hmk⟩ := Option.map_eq_some'.mp h
    obtain ⟨raw, hraw⟩ := determine_focused_window_title_normalized hti
    obtain ⟨-, htrim, hne⟩ := normalize_some_eq_trim hraw
    cases hmk
    exact ⟨htrim, hne⟩

/-- Witness for C9: both conjuncts applied at concrete environments
(Chrome foreground on Windows, Safari frontmost on macOS). -/
theorem c9_focused_window_title_nonempty_witness :
    ("Plan - Google Chrome".data ≠ ([] : List Char)) ∧
    (rustTrim "Plan - Safari".data = "Plan - Safari".data ∧
      "Plan - Safari".data ≠ ([] : List Char)) :=
  ⟨c9_focused_window_title_nonempty.1 winEnvChrome "T".data
      { title := "Plan - Google Chrome".data } (by decide),
    c9_focused_window_title_nonempty.2 macEnvSafari "T".data
      { title := "Plan - Safari".data } (by decide)⟩

/-- C6, counterexample.  The tab-title heuristic operates on the
*trimmed* window title, so it does not return the window title
unchanged when no suffix matches: `" Plan "` comes back as `"Plan"`,
not `" Plan "`. -/
theorem c6_trimming_counterexample :
    infer_browser_tab_title_from_window_title (some " Plan ".data) "Google Chrome".data =
      some "Plan".data ∧
    "Plan".data ≠ " Plan ".data := by
  constructor
  · decide
  · decide

theorem normalize_eq_some_self {raw : List Char} (h : rustTrim raw ≠ []) :
    normalize_non_empty_focus_text raw = some (rustTrim raw) := by
  unfold normalize_non_empty_focus_text
  rw [if_neg (by simpa [List.isEmpty_iff] using h)]

theorem normalize_eq_none {raw : List Char} (h : rustTrim raw = []) :
    normalize_non_empty_focus_text raw = none := by
  unfold normalize_non_empty_focus_text
  rw [if_pos (by simpa [List.isEmpty_iff] using h)]

theorem infer_some_eq {raw bn : List Char} (hne : rustTrim raw ≠ []) :
    infer_browser_tab_title_from_window_title (some raw) bn =
      (match stripSuffixCh (" - ".data ++ bn) (rustTrim raw) with
       | some r => some ((normalize_non_empty_focus_text r).getD (rustTrim raw))
       | none =>
         match stripSuffixCh (emDashSeparator ++ bn) (rustTrim raw) with
         | some r => some ((normalize_non_empty_focus_text r).getD (rustTrim raw))
         | none => some (rustTrim raw)) := by
  unfold infer_browser_tab_title_from_window_title
  simp only []
  rw [normalize_eq_some_self hne]

/-- C6, amended.  `infer_browser_tab_title_from_window_title` first
trims the window title; it is absent exactly when the title is absent
or trims to empty.  On the trimmed title it strips exactly one
`" - <BrowserName>"` suffix (or, failing that, the mojibake em-dash
variant), returns the *trimmed* remainder, falls back to the full
trimmed title if the remainder trims to empty, and returns the trimmed
title itself when no suffix matches.  The claim's two examples hold as
stated. -/
theorem c6_infer_tab_title_rule :
    (∀ bn : List Char,
      infer_browser_tab_title_from_window_title none bn = none) ∧
    (∀ (raw bn : List Char), rustTrim raw = [] →
      infer_browser_tab_title_from_window_title (some raw) bn = none) ∧
    (∀ (raw bn : List Char), rustTrim raw ≠ [] →
      (∀ r, rustTrim raw ≠ r ++ (" - ".data ++ bn)) →
      (∀ r, rustTrim raw ≠ r ++ (emDashSeparator ++ bn)) →
      infer_browser_tab_title_from_window_title (some raw) bn = some (rustTrim raw)) ∧
    (∀ (r raw bn : List Char), rustTrim raw = r ++ (" - ".data ++ bn) →
      infer_browser_tab_title_from_window_title (some raw) bn =
        some (if rustTrim r = [] then rustTrim raw else rustTrim r)) ∧
    (∀ (r raw bn : List Char), rustTrim raw = r ++ (emDashSeparator ++ bn) →
      (∀ r', rustTrim raw ≠ r' ++ (" - ".data ++ bn)) →
      infer_browser_tab_title_from_window_title (some raw) bn =
        some (if rustTrim r = [] then rustTrim raw else rustTrim r)) ∧
    (infer_browser_tab_title_from_window_title (some "Plan - Google Chrome".data)
        "Google Chrome".data = some "Plan".data ∧
      infer_browser_tab_title_from_window_title (some "Plan".data) "Google Chrome".data =
        some "Plan".data) := by
  refine ⟨fun bn => rfl, ?_, ?_, ?_, ?_, by decide, by decide⟩
  · intro raw bn h
    unfold infer_browser_tab_title_from_window_title
    simp only []
    rw [normalize_eq_none h]
  · intro raw bn hne h1 h2
    rw [infer_some_eq hne, stripSuffixCh_eq_none h1, stripSuffixCh_eq_none h2]
  · intro r raw bn hsfx
    have hne : rustTrim raw ≠ [] := by
      rw [hsfx]
      simp
    rw [infer_some_eq hne, hsfx, stripSuffixCh_append]
    simp only []
    by_cases hr : rustTrim r = []
    · rw [if_pos hr, normalize_eq_none hr]
      rfl
    · rw [if_neg hr, normalize_eq_some_self hr]
      rfl
  · intro r raw bn hsfx h1
    have hne : rustTrim raw ≠ [] := by
      rw [hsfx]
      simp [emDashSeparator]
    rw [infer_some_eq hne, stripSuffixCh_eq_none h1, hsfx, stripSuffixCh_append]
    simp only []
    by_cases hr : rustTrim r = []
    · rw [if_pos hr, normalize_eq_none hr]
      rfl
    · rw [if_neg hr, normalize_eq_some_self hr]
      rfl

/-- Witness for C6: the dash-suffix row applied at the claim's own
example input. -/
theorem c6_infer_tab_title_rule_witness :
    infer_browser_tab_title_from_window_title (some "Plan - Google Chrome".data)
      "Google Chrome".data =
      some (if rustTrim "Plan".data = [] then rustTrim "Plan - Google Chrome".data
        else rustTrim "Plan".data) :=
  c6_infer_tab_title_rule.2.2.2.1 "Plan".data "Plan - Google Chrome".data
    "Google Chrome".data (by decide)

theorem ite_not_bool (c : Bool) (x y : Option (List Char)) :
    (if (!c) = true then x else y) = if c = true then y else x := by
  cases c <;> simp

/-- C4, confirmed.  On every scheme-less input (no `"://"` in the
trimmed text), `normalize_browser_document_origin` behaves exactly as
the claim describes: absent when the trimmed text contains whitespace;
otherwise, with the authority taken up to the first `'/'`, `'?'` or
`'#'` and the bare host being the part before the first `':'`, it
returns `https://<authority>` precisely when the host contains a `'.'`,
equals `localhost` case-insensitively, or parses as an IP address, and
is absent otherwise.  In particular `"github.com/org/repo"` yields
`"https://github.com"`. -/
theorem c4_scheme_less_origin :
    (∀ s : List Char, containsSubstr "://".data (rustTrim s) = false →
      normalize_browser_document_origin s = claimedSchemeLessOrigin s) ∧
    normalize_browser_document_origin "github.com/org/repo".data =
      some "https://github.com".data := by
  constructor
  · intro s h
    have hfind : findSubstring "://".data (rustTrim s) = none := by
      cases hx : findSubstring "://".data (rustTrim s) with
      | none => rfl
      | some i =>
        unfold containsSubstr at h
        rw [hx] at h
        simp at h
    unfold normalize_browser_document_origin claimedSchemeLessOrigin
    simp only []
    by_cases hT : rustTrim s = []
    · rw [normalize_eq_none hT, hT]
      decide
    · rw [normalize_eq_some_self hT]
      simp only []
      have habs : normalize_origin_from_absolute_url (rustTrim s) = none := by
        unfold normalize_origin_from_absolute_url
        rw [hfind]
      rw [habs]
      show normalize_origin_from_scheme_less_url (rustTrim s) = _
      unfold normalize_origin_from_scheme_less_url
      simp only []
      by_cases hws : (rustTrim s).any rustIsWhitespace
      · rw [if_pos hws, if_pos hws]
      · rw [if_neg hws, if_neg hws]
        by_cases hA : (rustTrim s).take
            ((findCharIdx isAuthorityEnd (rustTrim s)).getD (rustTrim s).length) = []
        · rw [hA]
          rw [if_pos (by simp)]
          decide
        · rw [if_neg (by simpa [List.isEmpty_iff] using hA)]
          rw [ite_not_bool]
  · decide

/-- Witness for C4: the universally quantified refinement applied at
the claim's own example input, whose trimmed text contains no scheme
separator. -/
theorem c4_scheme_less_origin_witness :
    normalize_browser_document_origin "github.com/org/repo".data =
      claimedSchemeLessOrigin "github.com/org/repo".data :=
  c4_scheme_less_origin.1 "github.com/org/repo".data (by decide)

theorem schemeChar_props {c : Char} (h : isSchemeChar c = true) :
    c ≠ ':' ∧ c ≠ '/' ∧ c ≠ '?' ∧ c ≠ '#' ∧ rustIsWhitespace c = false := by
  unfold isSchemeChar at h
  rw [Bool.not_eq_true'] at h
  simp only [Bool.or_eq_false_iff, decide_eq_false_iff_not] at h
  exact ⟨h.1.1.1.1, h.1.1.1.2, h.1.1.2, h.1.2, h.2⟩

theorem authorityChar_props {c : Char} (h : isAuthorityChar c = true) :
    c ≠ '/' ∧ c ≠ '?' ∧ c ≠ '#' ∧ rustIsWhitespace c = false := by
  unfold isAuthorityChar at h
  rw [Bool.not_eq_true'] at h
  simp only [Bool.or_eq_false_iff, decide_eq_false_iff_not] at h
  exact ⟨h.1.1.1, h.1.1.2, h.1.2, h.2⟩

theorem isAuthorityEnd_eq_false {c : Char}
    (h1 : c ≠ '/') (h2 : c ≠ '?') (h3 : c ≠ '#') : isAuthorityEnd c = false := by
  unfold isAuthorityEnd
  simp [h1, h2, h3]

theorem findCharIdx_eq_none_of_all_false {p : Char → Bool} {a : List Char}
    (h : ∀ c ∈ a, p c = false) : findCharIdx p a = none := by
  have := findCharIdx_append_allFalse a [] h
  simpa [findCharIdx] using this

theorem sepChar_no_ws {c : Char} (h : c ∈ [':', '/', '/']) :
    rustIsWhitespace c = false := by
  have h' : c = ':' ∨ c = '/' ∨ c = '/' := by simpa using h
  rcases h' with h' | h' | h' <;> (subst h'; decide)

theorem drop3_cons (a b c : Char) (l : List Char) : (a :: b :: c :: l).drop 3 = l := rfl

theorem absolute_on_wellformed {scheme A rest : List Char}
    (hsC : ∀ c ∈ scheme, c ≠ ':') (hs : scheme ≠ [])
    (hA : A ≠ []) (hAC : ∀ c ∈ A, isAuthorityEnd c = false)
    (hr : restWellFormed rest = true) :
    normalize_origin_from_absolute_url (scheme ++ ':' :: '/' :: '/' :: (A ++ rest)) =
      some (scheme ++ "://".data ++ A) := by
  unfold normalize_origin_from_absolute_url
  rw [sep_data_eq, findSubstring_sep _ scheme hsC]
  simp only []
  rw [List.take_left, List.drop_left, drop3_cons]
  rw [if_neg (by simp [hs, hA])]
  cases rest with
  | nil =>
    rw [List.append_nil, findCharIdx_eq_none_of_all_false hAC]
    simp only [Option.getD_none, List.take_length]
    rw [if_neg (by simp [hA])]
  | cons c r' =>
    have hc : isAuthorityEnd c = true := hr
    rw [findCharIdx_append_allFalse A _ hAC]
    rw [show findCharIdx isAuthorityEnd (c :: r') = some 0 from by simp [findCharIdx, hc]]
    simp only [Option.map_some', Option.getD_some, Nat.zero_add]
    rw [List.take_left]
    rw [if_neg (by simp [hA])]

theorem schemeless_on_sep {a x : List Char}
    (hAE : ∀ c ∈ a, isAuthorityEnd c = false) (hC : ∀ c ∈ a, c ≠ ':')
    (hws : (a ++ ':' :: '/' :: '/' :: x).any rustIsWhitespace = false) :
    normalize_origin_from_scheme_less_url (a ++ ':' :: '/' :: '/' :: x) =
      (if (a.any (fun c => c = '.') || eqIgnoreAsciiCase a "localhost".data
          || isIpAddr a) = true
       then some ("https://".data ++ (a ++ [':'])) else none) := by
  unfold normalize_origin_from_scheme_less_url
  rw [if_neg (by simp [hws])]
  have h1 : findCharIdx isAuthorityEnd (':' :: '/' :: '/' :: x) = some 1 := by
    simp [findCharIdx, isAuthorityEnd]
  rw [findCharIdx_append_allFalse a _ hAE, h1]
  simp only [Option.map_some', Option.getD_some]
  have htake : (a ++ ':' :: '/' :: '/' :: x).take (1 + a.length) = a ++ [':'] := by
    rw [Nat.add_comm, List.take_append]
    rfl
  rw [htake]
  rw [if_neg (by simp)]
  have hhost : (a ++ [':']).takeWhile (fun c => c ≠ ':') = a := by
    refine takeWhile_append_stop a [] (fun d hd => ?_) (by decide)
    simpa using hC d hd
  rw [hhost, ite_not_bool]

/-- C3, counterexample.  The claim demands an absent result whenever
the authority between `"://"` and the first `'/'` is empty, but on
`"a.b://"` the failed absolute-URL parse falls through to the
scheme-less heuristic applied to the whole text, which accepts the
dotted host `a.b` and yields `https://a.b:`. -/
theorem c3_empty_authority_counterexample :
    normalize_browser_document_origin "a.b://".data = some "https://a.b:".data := by
  decide

/-- C3, amended.  For every well-formed
`scheme://host[:port][/path][?q][#f]` (non-empty whitespace-free scheme
without `':'`, `'/'`, `'?'`, `'#'`; non-empty whitespace-free authority
without `'/'`, `'?'`, `'#'`; the remainder empty or introduced by one of
`'/'`, `'?'`, `'#'` and whitespace-free) the result is exactly
`scheme://host[:port]`, dropping path, query and fragment.  When the
scheme is empty the result is absent.  When the authority is empty,
however, the result falls through to the scheme-less heuristic on the
whole text: it is `https://<scheme>:` when the scheme itself looks like
a host (contains `'.'`, equals `localhost` case-insensitively, or
parses as an IP address) and absent otherwise. -/
theorem c3_absolute_origin_rule :
    (∀ scheme authority rest : List Char,
      scheme ≠ [] → scheme.all isSchemeChar = true →
      authority ≠ [] → authority.all isAuthorityChar = true →
      restWellFormed rest = true → rest.all (fun c => !rustIsWhitespace c) = true →
      normalize_browser_document_origin (scheme ++ "://".data ++ authority ++ rest) =
        some (scheme ++ "://".data ++ authority)) ∧
    (∀ rest : List Char,
      normalize_browser_document_origin (':' :: '/' :: '/' :: rest) = none) ∧
    (∀ scheme rest : List Char,
      scheme ≠ [] → scheme.all isSchemeChar = true →
      restWellFormed rest = true → rest.all (fun c => !rustIsWhitespace c) = true →
      normalize_browser_document_origin (scheme ++ "://".data ++ rest) =
        (if (scheme.any (fun c => c = '.')
            || eqIgnoreAsciiCase scheme "localhost".data || isIpAddr scheme) = true
         then some ("https://".data ++ scheme ++ [':']) else none)) := by
  refine ⟨?_, ?_, ?_⟩
  · intro scheme authority rest hs hsc ha hac hr hrw
    have hshape : scheme ++ "://".data ++ authority ++ rest =
        scheme ++ ':' :: '/' :: '/' :: (authority ++ rest) := by
      rw [sep_data_eq]
      simp [List.append_assoc]
    rw [hshape]
    have hNoWs : ∀ c ∈ scheme ++ ':' :: '/' :: '/' :: (authority ++ rest),
        rustIsWhitespace c = false := by
      intro c hc
      rcases List.mem_append.mp hc with h1 | h2
      · exact (schemeChar_props (List.all_eq_true.mp hsc c h1)).2.2.2.2
      rcases List.mem_cons.mp h2 with rfl | h3
      · decide
      rcases List.mem_cons.mp h3 with rfl | h4
      · decide
      rcases List.mem_cons.mp h4 with rfl | h5
      · decide
      rcases List.mem_append.mp h5 with h6 | h7
      · exact (authorityChar_props (List.all_eq_true.mp hac c h6)).2.2.2
      · have := List.all_eq_true.mp hrw c h7
        simpa using this
    have hne : scheme ++ ':' :: '/' :: '/' :: (authority ++ rest) ≠ [] := by simp
    have htrim := rustTrim_eq_self_of_no_ws hNoWs
    have hTne : rustTrim (scheme ++ ':' :: '/' :: '/' :: (authority ++ rest)) ≠ [] := by
      rw [htrim]
      exact hne
    unfold normalize_browser_document_origin
    rw [normalize_eq_some_self hTne, htrim]
    simp only []
    rw [absolute_on_wellformed (fun c hc =>
        (schemeChar_props (List.all_eq_true.mp hsc c hc)).1) hs ha
      (fun c hc =>
        (isAuthorityEnd_eq_false
          (authorityChar_props (List.all_eq_true.mp hac c hc)).1
          (authorityChar_props (List.all_eq_true.mp hac c hc)).2.1
          (authorityChar_props (List.all_eq_true.mp hac c hc)).2.2.1)) hr]
    rfl
  · intro rest
    have htrim : rustTrim (':' :: '/' :: '/' :: rest) =
        ':' :: '/' :: '/' :: trimRightWs rest := by
      unfold rustTrim
      have hl : trimLeftWs (':' :: '/' :: '/' :: rest) = ':' :: '/' :: '/' :: rest := by
        unfold trimLeftWs
        rw [List.dropWhile_cons, if_neg (by decide)]
      rw [hl]
      have hsp := trimRightWs_append [':', '/', '/'] rest
      rw [show ([':', '/', '/'] ++ rest) = ':' :: '/' :: '/' :: rest from rfl] at hsp
      rw [hsp]
      by_cases hre : (trimRightWs rest).isEmpty
      · rw [if_pos hre]
        rw [List.isEmpty_iff] at hre
        rw [hre]
        decide
      · rw [if_neg hre]
        rfl
    have hTne : rustTrim (':' :: '/' :: '/' :: rest) ≠ [] := by
      rw [htrim]
      simp
    unfold normalize_browser_document_origin
    rw [normalize_eq_some_self hTne, htrim]
    simp only []
    have habs : normalize_origin_from_absolute_url
        (':' :: '/' :: '/' :: trimRightWs rest) = none := by
      unfold normalize_origin_from_absolute_url
      rw [sep_data_eq]
      rw [show findSubstring [':', '/', '/'] (':' :: '/' :: '/' :: trimRightWs rest) =
          some 0 from by
        have hpref : ([':', '/', '/']).isPrefixOf
            (':' :: '/' :: '/' :: trimRightWs rest) = true := by
          rw [List.isPrefixOf_iff_prefix]
          exact ⟨trimRightWs rest, rfl⟩
        simp [findSubstring, hpref]]
      simp
    rw [habs]
    show normalize_origin_from_scheme_less_url (':' :: '/' :: '/' :: trimRightWs rest) = _
    by_cases hws : (':' :: '/' :: '/' :: trimRightWs rest).any rustIsWhitespace
    · unfold normalize_origin_from_scheme_less_url
      rw [if_pos hws]
    · have hsl := schemeless_on_sep (a := []) (x := trimRightWs rest)
        (by intro c hc; cases hc) (by intro c hc; cases hc)
        (by simpa using hws)
      rw [List.nil_append] at hsl
      rw [hsl]
      decide
  · intro scheme rest hs hsc hr hrw
    have hshape : scheme ++ "://".data ++ rest = scheme ++ ':' :: '/' :: '/' :: rest := by
      rw [sep_data_eq]
      simp [List.append_assoc]
    rw [hshape]
    have hNoWs : ∀ c ∈ scheme ++ ':' :: '/' :: '/' :: rest,
        rustIsWhitespace c = false := by
      intro c hc
      rcases List.mem_append.mp hc with h1 | h2
      · exact (schemeChar_props (List.all_eq_true.mp hsc c h1)).2.2.2.2
      rcases List.mem_cons.mp h2 with rfl | h3
      · decide
      rcases List.mem_cons.mp h3 with rfl | h4
      · decide
      rcases List.mem_cons.mp h4 with rfl | h5
      · decide
      · have := List.all_eq_true.mp hrw c h5
        simpa using this
    have hne : scheme ++ ':' :: '/' :: '/' :: rest ≠ [] := by simp
    have htrim := rustTrim_eq_self_of_no_ws hNoWs
    have hTne : rustTrim (scheme ++ ':' :: '/' :: '/' :: rest) ≠ [] := by
      rw [htrim]
      exact hne
    unfold normalize_browser_document_origin
    rw [normalize_eq_some_self hTne, htrim]
    simp only []
    have hsC : ∀ c ∈ scheme, c ≠ ':' := fun c hc =>
      (schemeChar_props (List.all_eq_true.mp hsc c hc)).1
    have habs : normalize_origin_from_absolute_url
        (scheme ++ ':' :: '/' :: '/' :: rest) = none := by
      unfold normalize_origin_from_absolute_url
      rw [sep_data_eq, findSubstring_sep _ scheme hsC]
      simp only []
      rw [List.take_left, List.drop_left, drop3_cons]
      cases rest with
      | nil => simp
      | cons c r' =>
        have hc : isAuthorityEnd c = true := hr
        rw [if_neg (by simp [hs])]
        rw [show findCharIdx isAuthorityEnd (c :: r') = some 0 from by
          simp [findCharIdx, hc]]
        simp
    rw [habs]
    show normalize_origin_from_scheme_less_url (scheme ++ ':' :: '/' :: '/' :: rest) = _
    have hAE : ∀ c ∈ scheme, isAuthorityEnd c = false := fun c hc =>
      isAuthorityEnd_eq_false
        (schemeChar_props (List.all_eq_true.mp hsc c hc)).2.1
        (schemeChar_props (List.all_eq_true.mp hsc c hc)).2.2.1
        (schemeChar_props (List.all_eq_true.mp hsc c hc)).2.2.2.1
    have hwsF : (scheme ++ ':' :: '/' :: '/' :: rest).any rustIsWhitespace = false := by
      rw [List.any_eq_false]
      intro c hc
      simp [hNoWs c hc]
    rw [schemeless_on_sep hAE hsC hwsF]
    rfl

/-- Witness for C3: the well-formed case applied at the claim's example
`https://example.com/path?token=abc#s`, yielding
`https://example.com`. -/
theorem c3_absolute_origin_rule_witness :
    normalize_browser_document_origin
      ("https".data ++ "://".data ++ "example.com".data ++ "/path?token=abc#s".data) =
      some ("https".data ++ "://".data ++ "example.com".data) :=
  c3_absolute_origin_rule.1 "https".data "example.com".data "/path?token=abc#s".data
    (by decide) (by decide) (by decide) (by decide) (by decide) (by decide)

end TambourineFocus
